import Mathlib

/-!
go-redis-suggest: the suggestion command adapter.

A shallow embedding of `suggestion.go` (package `redissug`): the four `FT.SUG*`
operations of `RedisSuggestionClient`, the argument lists they hand to the
Redis driver, and the decoding of the flat `FT.SUGGET` reply.

The Redis driver (`redis.Client`, `redis.Cmd`) is a black box: a command is
answered by a `Cmd`, of which only the two accessors the adapter calls are
kept.  Go run-time panics the adapter can raise (a negative `make` capacity,
an index out of range) are explicit results.
-/

namespace Redissug

/-! ## Data model -/

/-- A Go `float64`, carried by its IEEE-754 bit pattern.  The adapter never
computes with a score, it only forwards it. -/
structure Float64 where
  bits : Nat
  deriving DecidableEq, Repr

/-- The dynamic value held by a Go `any`: what the adapter puts in a command
(`string`, `float64`, `int`) and what an element of a decoded reply can be. -/
inductive Value where
  | nil
  | str (s : String)
  | int (n : Int)
  | float (x : Float64)
  | bool (b : Bool)
  | array (vs : List Value)

/-- A Go `error` value that is not `nil`: the sentinel `redis.Nil`, or any other
error of the driver. -/
inductive Error where
  | Nil
  | other (msg : String)
  deriving DecidableEq, Repr

/-- The Go struct `Suggestion`. -/
structure Suggestion where
  Text : String
  Payload : String
  deriving DecidableEq, Repr

/-- The Go struct `SugGetOptions`. -/
structure SugGetOptions where
  Fuzzy : Bool
  WithPayloads : Bool
  deriving DecidableEq, Repr

/-- The driver's `*redis.Cmd`, seen through the two accessors the adapter calls:
`Int()` gives `(int, error)` and `Slice()` gives `([]any, error)`; a Go `nil`
error is `none`. -/
structure Cmd where
  Int : Int × Option Error
  Slice : List Value × Option Error

/-- The driver's `*redis.Client`: `Do(ctx, args...)` answers an argument list
with a `Cmd`.  The context is only forwarded, so `Do` stands for the call at the
caller's context. -/
structure Client where
  Do : List Value → Cmd

/-- The Go struct `RedisSuggestionClient`. -/
structure RedisSuggestionClient where
  DB : Client

/-- A Go run-time panic the adapter can raise. -/
inductive Panic where
  | makesliceCapOutOfRange
  | indexOutOfRange (index length : Nat)
  deriving DecidableEq, Repr

/-- What the Go run time decides for the adapter: `maxCap` is the largest
capacity the run time accepts in `make([]Suggestion, 0, cap)` (its allocation
bound divided by the size of a `Suggestion`).  Running out of memory below that
bound is not modelled. -/
structure Runtime where
  maxCap : Nat

/-- One call of an adapter method: `args` is the argument list it handed to
`s.DB.Do`, `ret` is what the method gave back to its caller. -/
structure Call (α : Type) where
  args : List Value
  ret : α

/-! ## Operations -/

/-- The Go type assertion `v.(string)` in its two-result form: the string and
`true` when the dynamic type is `string`, the zero value and `false` otherwise. -/
def Value.assertString : Value → String × Bool
  | .str s => (s, true)
  | _ => ("", false)

/-- The allocation `make([]Suggestion, 0, cap)` of `SugGet`: a run-time panic
("makeslice: cap out of range") when the capacity is negative, the length 0 then
being larger than the capacity, or beyond what the run time accepts; an empty
slice otherwise. -/
def makeSuggestions (rt : Runtime) (cap : Int) : Except Panic (List Suggestion) :=
  if cap < 0 ∨ (rt.maxCap : Int) < cap then .error .makesliceCapOutOfRange else .ok []

/-- The decoding loop of `SugGet`, `for i := 0; i < len(result); { ... }`, from
index `i` with the suggestions appended so far.  `result[i]` is read for the
text; with payloads `result[i]` is read again after the increment, with Go's
bounds check. -/
def decodeLoop (withPayloads : Bool) (result : List Value) (i : Nat)
    (suggestions : List Suggestion) : Except Panic (List Suggestion) :=
  if h : i < result.length then
    let text := (result.get ⟨i, h⟩).assertString.1
    let i := i + 1
    if withPayloads then
      if h2 : i < result.length then
        let payload := (result.get ⟨i, h2⟩).assertString.1
        let i := i + 1
        decodeLoop withPayloads result i (suggestions ++ [⟨text, payload⟩])
      else
        .error (.indexOutOfRange i result.length)
    else
      decodeLoop withPayloads result i (suggestions ++ [⟨text, ""⟩])
  else
    .ok suggestions
termination_by result.length - i

/-- The method `SugAdd`. -/
def SugAdd (s : RedisSuggestionClient) (key suggestion : String) (score : Float64)
    (incr : Bool) (payload : String) : Call (Int × Option Error) :=
  let args : List Value := [.str "FT.SUGADD", .str key, .str suggestion, .float score]
  let args := if incr then args ++ [.str "INCR"] else args
  let args := if payload ≠ "" then args ++ [.str "PAYLOAD", .str payload] else args
  ⟨args, (s.DB.Do args).Int⟩

/-- The method `SugGet`; `pre` is the parameter `prefix`.  The result is the
returned pair `(suggestions, err)`, or the panic that ended the call. -/
def SugGet (rt : Runtime) (s : RedisSuggestionClient) (key pre : String) (max : Int)
    (opts : SugGetOptions) : Call (Except Panic (List Suggestion × Option Error)) :=
  let args : List Value := [.str "FT.SUGGET", .str key, .str pre]
  let args := if opts.Fuzzy then args ++ [.str "FUZZY"] else args
  let args := if opts.WithPayloads then args ++ [.str "WITHPAYLOADS"] else args
  let args := if max > 0 then args ++ [.str "MAX", .int max] else args
  let (result, err) := (s.DB.Do args).Slice
  ⟨args,
    match err with
    | some e => .ok ([], some e)
    | none =>
      match makeSuggestions rt max with
      | .error p => .error p
      | .ok suggestions =>
        match decodeLoop opts.WithPayloads result 0 suggestions with
        | .error p => .error p
        | .ok suggestions => .ok (suggestions, none)⟩

/-- The method `SugDel`. -/
def SugDel (s : RedisSuggestionClient) (key suggestion : String) : Call (Option Error) :=
  let args : List Value := [.str "FT.SUGDEL", .str key, .str suggestion]
  let (v, err) := (s.DB.Do args).Int
  ⟨args,
    match err with
    | some e => some e
    | none => if v = 0 then some Error.Nil else none⟩

/-- The method `SugLen`. -/
def SugLen (s : RedisSuggestionClient) (key : String) : Call (Int × Option Error) :=
  let args : List Value := [.str "FT.SUGLEN", .str key]
  ⟨args, (s.DB.Do args).Int⟩

/-- A driver that answers every command with the same reply. -/
def constClient (n : Int) (nerr : Option Error) (reply : List Value) (rerr : Option Error) :
    RedisSuggestionClient :=
  ⟨⟨fun _ => ⟨(n, nerr), (reply, rerr)⟩⟩⟩

/-- The reply of the test "when getting with payloads, then payloads are returned". -/
def replyWithPayloads : List Value :=
  [.str "tent", .str "", .str "test", .str "payload2", .str "text", .str "payload1"]

/-- The reply of the test "when prefix, then return all matched in highest to
lowest score order". -/
def replyTexts : List Value :=
  [.str "tent", .str "test", .str "text"]

/-- A reply in which the driver decoded some elements to something else than a
string. -/
def replyMixed : List Value :=
  [.str "tent", .int 7, .nil, .str "payload2"]

/-- A run time that can allocate result buffers of up to 1024 suggestions. -/
def smallRuntime : Runtime :=
  ⟨1024⟩

/-- The `float64` 1.0, the score of the first `SugAdd` of the test. -/
def scoreOne : Float64 :=
  ⟨0x3FF0000000000000⟩

/-! ## The decoding loop -/

theorem decodeLoop_done (wp : Bool) (result : List Value) (i : Nat) (acc : List Suggestion)
    (h : result.length ≤ i) : decodeLoop wp result i acc = .ok acc := by
  rw [decodeLoop]
  simp [Nat.not_lt.mpr h]

theorem decodeLoop_text_step (result : List Value) (i : Nat) (acc : List Suggestion)
    (h : i < result.length) :
    decodeLoop false result i acc =
      decodeLoop false result (i + 1) (acc ++ [⟨(result.get ⟨i, h⟩).assertString.1, ""⟩]) := by
  rw [decodeLoop]
  simp [h]

theorem decodeLoop_pair_step (result : List Value) (i : Nat) (acc : List Suggestion)
    (h : i < result.length) (h2 : i + 1 < result.length) :
    decodeLoop true result i acc =
      decodeLoop true result (i + 2)
        (acc ++ [⟨(result.get ⟨i, h⟩).assertString.1, (result.get ⟨i + 1, h2⟩).assertString.1⟩]) := by
  rw [decodeLoop]
  simp [h, h2]

theorem decodeLoop_pair_short (result : List Value) (i : Nat) (acc : List Suggestion)
    (h : i + 1 = result.length) :
    decodeLoop true result i acc = .error (.indexOutOfRange (i + 1) result.length) := by
  rw [decodeLoop]
  have h1 : i < result.length := by omega
  have h2 : ¬ (i + 1 < result.length) := by omega
  simp [h1, h2]


theorem decodeLoop_texts (result : List Value) :
    ∀ (k i : Nat) (acc : List Suggestion), i + k = result.length →
      decodeLoop false result i acc =
        .ok (acc ++ (result.drop i).map (fun v => (⟨v.assertString.1, ""⟩ : Suggestion))) := by
  intro k
  induction k with
  | zero =>
    intro i acc h
    rw [decodeLoop_done false result i acc (by omega), List.drop_of_length_le (by omega)]
    simp
  | succ k ih =>
    intro i acc h
    have hi : i < result.length := by omega
    rw [decodeLoop_text_step result i acc hi, ih (i + 1) _ (by omega),
      List.drop_eq_getElem_cons hi]
    simp only [List.map_cons, List.append_assoc, List.singleton_append, List.get_eq_getElem]

theorem decodeLoop_pairs (result : List Value) :
    ∀ (d i : Nat) (acc : List Suggestion), i + 2 * d = result.length →
      decodeLoop true result i acc =
        .ok (acc ++ (List.range d).map (fun k =>
          (⟨(result.getD (i + 2 * k) .nil).assertString.1,
            (result.getD (i + 2 * k + 1) .nil).assertString.1⟩ : Suggestion))) := by
  intro d
  induction d with
  | zero =>
    intro i acc h
    rw [decodeLoop_done true result i acc (by omega)]
    simp
  | succ d ih =>
    intro i acc h
    have hi : i < result.length := by omega
    have hi2 : i + 1 < result.length := by omega
    rw [decodeLoop_pair_step result i acc hi hi2, ih (i + 2) _ (by omega),
      List.range_succ_eq_map]
    simp [List.getD_eq_getElem, hi, hi2, Function.comp_def]
    intro a _
    have e : i + 2 + 2 * a = i + 2 * (a + 1) := by omega
    rw [e]
    exact ⟨rfl, rfl⟩

theorem decodeLoop_odd (result : List Value) :
    ∀ (d i : Nat) (acc : List Suggestion), i + 2 * d + 1 = result.length →
      decodeLoop true result i acc =
        .error (.indexOutOfRange result.length result.length) := by
  intro d
  induction d with
  | zero =>
    intro i acc h
    rw [decodeLoop_pair_short result i acc (by omega)]
    simp at h
    rw [h]
  | succ d ih =>
    intro i acc h
    rw [decodeLoop_pair_step result i acc (by omega) (by omega), ih (i + 2) _ (by omega)]


/-! ## `SugGet` after the driver has answered -/

theorem SugGet_args (rt : Runtime) (s : RedisSuggestionClient) (key pre : String) (max : Int)
    (opts : SugGetOptions) :
    (SugGet rt s key pre max opts).args =
      [.str "FT.SUGGET", .str key, .str pre]
        ++ (if opts.Fuzzy then [.str "FUZZY"] else [])
        ++ (if opts.WithPayloads then [.str "WITHPAYLOADS"] else [])
        ++ (if 0 < max then [.str "MAX", .int max] else []) := by
  simp only [SugGet]
  split_ifs <;> simp

theorem SugGet_ret (rt : Runtime) (s : RedisSuggestionClient) (key pre : String) (max : Int)
    (opts : SugGetOptions) :
    (SugGet rt s key pre max opts).ret =
      match (s.DB.Do (SugGet rt s key pre max opts).args).Slice.2 with
      | some e => .ok ([], some e)
      | none =>
        match makeSuggestions rt max with
        | .error p => .error p
        | .ok suggestions =>
          match decodeLoop opts.WithPayloads
              (s.DB.Do (SugGet rt s key pre max opts).args).Slice.1 0 suggestions with
          | .error p => .error p
          | .ok suggestions => .ok (suggestions, none) := by
  rfl

theorem SugGet_ret_of_error (rt : Runtime) (s : RedisSuggestionClient) (key pre : String)
    (max : Int) (opts : SugGetOptions) (reply : List Value) (e : Error)
    (hdo : (s.DB.Do (SugGet rt s key pre max opts).args).Slice = (reply, some e)) :
    (SugGet rt s key pre max opts).ret = .ok ([], some e) := by
  rw [SugGet_ret, hdo]

theorem SugGet_ret_of_reply (rt : Runtime) (s : RedisSuggestionClient) (key pre : String)
    (max : Int) (opts : SugGetOptions) (reply : List Value)
    (hmax : 0 ≤ max ∧ max ≤ rt.maxCap)
    (hdo : (s.DB.Do (SugGet rt s key pre max opts).args).Slice = (reply, none)) :
    (SugGet rt s key pre max opts).ret =
      match decodeLoop opts.WithPayloads reply 0 [] with
      | .error p => .error p
      | .ok suggestions => .ok (suggestions, none) := by
  have halloc : makeSuggestions rt max = .ok [] := by
    unfold makeSuggestions
    rw [if_neg]
    omega
  rw [SugGet_ret, hdo]
  simp only [halloc]

theorem SugGet_ret_of_bad_cap (rt : Runtime) (s : RedisSuggestionClient) (key pre : String)
    (max : Int) (opts : SugGetOptions) (reply : List Value)
    (hmax : max < 0 ∨ (rt.maxCap : Int) < max)
    (hdo : (s.DB.Do (SugGet rt s key pre max opts).args).Slice = (reply, none)) :
    (SugGet rt s key pre max opts).ret = .error .makesliceCapOutOfRange := by
  have halloc : makeSuggestions rt max = .error .makesliceCapOutOfRange := by
    unfold makeSuggestions
    rw [if_pos hmax]
  rw [SugGet_ret, hdo]
  simp only [halloc]

theorem SugGet_pairs_of_reply (rt : Runtime) (s : RedisSuggestionClient) (key pre : String)
    (max : Int) (fuzzy : Bool) (reply : List Value) (n : Nat)
    (hmax : 0 ≤ max ∧ max ≤ rt.maxCap)
    (hdo : (s.DB.Do (SugGet rt s key pre max ⟨fuzzy, true⟩).args).Slice = (reply, none))
    (hlen : reply.length = 2 * n) :
    (SugGet rt s key pre max ⟨fuzzy, true⟩).ret =
      .ok ((List.range n).map (fun k =>
        (⟨(reply.getD (2 * k) .nil).assertString.1,
          (reply.getD (2 * k + 1) .nil).assertString.1⟩ : Suggestion)), none) := by
  rw [SugGet_ret_of_reply rt s key pre max _ reply hmax hdo]
  simp only [decodeLoop_pairs reply n 0 [] (by omega), List.nil_append, Nat.zero_add]

theorem SugGet_texts_of_reply (rt : Runtime) (s : RedisSuggestionClient) (key pre : String)
    (max : Int) (fuzzy : Bool) (reply : List Value)
    (hmax : 0 ≤ max ∧ max ≤ rt.maxCap)
    (hdo : (s.DB.Do (SugGet rt s key pre max ⟨fuzzy, false⟩).args).Slice = (reply, none)) :
    (SugGet rt s key pre max ⟨fuzzy, false⟩).ret =
      .ok (reply.map (fun v => (⟨v.assertString.1, ""⟩ : Suggestion)), none) := by
  rw [SugGet_ret_of_reply rt s key pre max _ reply hmax hdo]
  simp only [decodeLoop_texts reply reply.length 0 [] (by omega), List.nil_append,
    List.drop_zero]

theorem assertString_of_str (v : Value) (x : String) (h : v = .str x) :
    v.assertString.1 = x := by
  subst h
  rfl

theorem assertString_of_not_str (v : Value) (h : ∀ x, v ≠ .str x) :
    v.assertString.1 = "" := by
  cases v with
  | str x => exact absurd rfl (h x)
  | _ => rfl

/-! ## Reply decoding -/

/-- C1, as the code has it.  With `WithPayloads = true`, for a reply of even
length `2 * n` that the driver returns without error: when the result buffer is
allocated (`0 ≤ max`, within the capacity the run time accepts) the call returns
no error and exactly `n` suggestions, the `k`-th one with `Text` from
`reply[2k]` and `Payload` from `reply[2k+1]`, each by the string type assertion,
in the order of the reply; when it is not (a negative `max`, or one beyond the
capacity) the call panics in `make` and returns nothing. -/
theorem SugGet_withPayloads_outcome (rt : Runtime) (s : RedisSuggestionClient)
    (key pre : String) (max : Int) (fuzzy : Bool) (reply : List Value) (n : Nat)
    (hdo : (s.DB.Do (SugGet rt s key pre max ⟨fuzzy, true⟩).args).Slice = (reply, none))
    (hlen : reply.length = 2 * n) :
    ((0 ≤ max ∧ max ≤ rt.maxCap) →
      ∃ out : List Suggestion,
        (SugGet rt s key pre max ⟨fuzzy, true⟩).ret = .ok (out, none) ∧
        out.length = n ∧
        ∀ k, k < n → ∃ t p : Value,
          reply[2 * k]? = some t ∧ reply[2 * k + 1]? = some p ∧
          out[k]? = some ⟨t.assertString.1, p.assertString.1⟩) ∧
    ((max < 0 ∨ (rt.maxCap : Int) < max) →
      (SugGet rt s key pre max ⟨fuzzy, true⟩).ret = .error .makesliceCapOutOfRange) := by
  refine ⟨fun hmax => ?_, fun hmax => SugGet_ret_of_bad_cap rt s key pre max _ reply hmax hdo⟩
  refine ⟨_, SugGet_pairs_of_reply rt s key pre max fuzzy reply n hmax hdo hlen, ?_, ?_⟩
  · simp
  · intro k hk
    have h1 : 2 * k < reply.length := by omega
    have h2 : 2 * k + 1 < reply.length := by omega
    refine ⟨reply[2 * k], reply[2 * k + 1], List.getElem?_eq_getElem h1,
      List.getElem?_eq_getElem h2, ?_⟩
    simp [List.getElem?_range hk, List.getD_eq_getElem, h1, h2]

/-- C1, on the reply of the test "when getting with payloads": with `max = -1`
the call panics in `make`; with `max = 10` it returns
`[{tent, ""}, {test, payload2}, {text, payload1}]` and no error. -/
theorem SugGet_withPayloads_outcome_witness :
    ((constClient 0 none replyWithPayloads none).DB.Do
      (SugGet smallRuntime (constClient 0 none replyWithPayloads none)
        "sug" "te" (-1) ⟨false, true⟩).args).Slice = (replyWithPayloads, none) ∧
    replyWithPayloads.length = 2 * 3 ∧
    (SugGet smallRuntime (constClient 0 none replyWithPayloads none)
        "sug" "te" (-1) ⟨false, true⟩).ret = .error .makesliceCapOutOfRange ∧
    (SugGet smallRuntime (constClient 0 none replyWithPayloads none)
        "sug" "te" 10 ⟨false, true⟩).ret =
      .ok ([⟨"tent", ""⟩, ⟨"test", "payload2"⟩, ⟨"text", "payload1"⟩], none) :=
  ⟨rfl, rfl,
    (SugGet_withPayloads_outcome smallRuntime (constClient 0 none replyWithPayloads none)
      "sug" "te" (-1) false replyWithPayloads 3 rfl rfl).2 (Or.inl (by decide)),
    (SugGet_pairs_of_reply smallRuntime (constClient 0 none replyWithPayloads none)
      "sug" "te" 10 false replyWithPayloads 3 (by decide) rfl rfl).trans rfl⟩

/-- C2, as the code has it.  With `WithPayloads = false`, for a reply of length
`n` that the driver returns without error: when the result buffer is allocated
(`0 ≤ max`, within the capacity the run time accepts) the call returns no error
and exactly `n` suggestions, the `i`-th one with `Text` from `reply[i]` by the
string type assertion and the empty `Payload`, in the order of the reply; when
it is not (a negative `max`, or one beyond the capacity) the call panics in
`make` and returns nothing. -/
theorem SugGet_withoutPayloads_outcome (rt : Runtime) (s : RedisSuggestionClient)
    (key pre : String) (max : Int) (fuzzy : Bool) (reply : List Value) (n : Nat)
    (hdo : (s.DB.Do (SugGet rt s key pre max ⟨fuzzy, false⟩).args).Slice = (reply, none))
    (hlen : reply.length = n) :
    ((0 ≤ max ∧ max ≤ rt.maxCap) →
      ∃ out : List Suggestion,
        (SugGet rt s key pre max ⟨fuzzy, false⟩).ret = .ok (out, none) ∧
        out.length = n ∧
        ∀ i, i < n → ∃ t : Value,
          reply[i]? = some t ∧ out[i]? = some ⟨t.assertString.1, ""⟩) ∧
    ((max < 0 ∨ (rt.maxCap : Int) < max) →
      (SugGet rt s key pre max ⟨fuzzy, false⟩).ret = .error .makesliceCapOutOfRange) := by
  refine ⟨fun hmax => ?_, fun hmax => SugGet_ret_of_bad_cap rt s key pre max _ reply hmax hdo⟩
  refine ⟨_, SugGet_texts_of_reply rt s key pre max fuzzy reply hmax hdo, ?_, ?_⟩
  · simp [hlen]
  · intro i hi
    have h1 : i < reply.length := by omega
    exact ⟨reply[i], List.getElem?_eq_getElem h1, by simp [List.getElem?_eq_getElem h1]⟩

/-- C2, on the reply of the test "when prefix, then return all matched": with
`max = -1` the call panics in `make`; with `max = 10` it returns
`[{tent, ""}, {test, ""}, {text, ""}]` and no error. -/
theorem SugGet_withoutPayloads_outcome_witness :
    ((constClient 0 none replyTexts none).DB.Do
      (SugGet smallRuntime (constClient 0 none replyTexts none)
        "sug" "te" (-1) ⟨false, false⟩).args).Slice = (replyTexts, none) ∧
    replyTexts.length = 3 ∧
    (SugGet smallRuntime (constClient 0 none replyTexts none)
        "sug" "te" (-1) ⟨false, false⟩).ret = .error .makesliceCapOutOfRange ∧
    (SugGet smallRuntime (constClient 0 none replyTexts none)
        "sug" "te" 10 ⟨false, false⟩).ret =
      .ok ([⟨"tent", ""⟩, ⟨"test", ""⟩, ⟨"text", ""⟩], none) :=
  ⟨rfl, rfl,
    (SugGet_withoutPayloads_outcome smallRuntime (constClient 0 none replyTexts none)
      "sug" "te" (-1) false replyTexts 3 rfl rfl).2 (Or.inl (by decide)),
    (SugGet_texts_of_reply smallRuntime (constClient 0 none replyTexts none)
      "sug" "te" 10 false replyTexts (by decide) rfl).trans rfl⟩

/-- C7, as the code has it.  For every well-shaped reply (any length without
payloads, even length with payloads) the driver returns without error, whatever
the dynamic types of its elements: when the result buffer is allocated the call
returns no error and as many records as the length alone decides (all of them
without payloads, half of them with payloads, as for an all-string reply); in
each record a field whose source element is a string equals that string, a field
whose source element is not a string is empty, and a field depends on its own
source element only.  When the buffer is not allocated (a negative `max`, or one
beyond the capacity) the call panics in `make` and returns nothing. -/
theorem SugGet_non_strings_outcome (rt : Runtime) (s : RedisSuggestionClient)
    (key pre : String) (max : Int) (opts : SugGetOptions) (reply : List Value)
    (hdo : (s.DB.Do (SugGet rt s key pre max opts).args).Slice = (reply, none))
    (hshape : opts.WithPayloads = true → reply.length % 2 = 0) :
    ((0 ≤ max ∧ max ≤ rt.maxCap) →
      ∃ out : List Suggestion,
        (SugGet rt s key pre max opts).ret = .ok (out, none) ∧
        out.length = (if opts.WithPayloads then reply.length / 2 else reply.length) ∧
        ∀ k, k < out.length → ∃ (r : Suggestion) (t : Value),
          out[k]? = some r ∧
          reply[if opts.WithPayloads then 2 * k else k]? = some t ∧
          (∀ x, t = .str x → r.Text = x) ∧
          ((∀ x, t ≠ .str x) → r.Text = "") ∧
          (opts.WithPayloads = true → ∃ p : Value,
            reply[2 * k + 1]? = some p ∧
            (∀ x, p = .str x → r.Payload = x) ∧
            ((∀ x, p ≠ .str x) → r.Payload = ""))) ∧
    ((max < 0 ∨ (rt.maxCap : Int) < max) →
      (SugGet rt s key pre max opts).ret = .error .makesliceCapOutOfRange) := by
  refine ⟨fun hmax => ?_, fun hmax => SugGet_ret_of_bad_cap rt s key pre max _ reply hmax hdo⟩
  obtain ⟨fuzzy, wp⟩ := opts
  cases wp with
  | false =>
    refine ⟨_, SugGet_texts_of_reply rt s key pre max fuzzy reply hmax hdo, by simp, ?_⟩
    intro k hk
    have h1 : k < reply.length := by simpa using hk
    refine ⟨⟨reply[k].assertString.1, ""⟩, reply[k], by simp [List.getElem?_eq_getElem h1],
      by simp [List.getElem?_eq_getElem h1], ?_, ?_, by simp⟩
    · exact fun x hx => assertString_of_str _ x hx
    · exact fun hx => assertString_of_not_str _ hx
  | true =>
    have hlen : reply.length = 2 * (reply.length / 2) := by
      have := hshape rfl
      omega
    refine ⟨_, SugGet_pairs_of_reply rt s key pre max fuzzy reply _ hmax hdo hlen,
      by simp, ?_⟩
    intro k hk
    have hk2 : k < reply.length / 2 := by simpa using hk
    have h1 : 2 * k < reply.length := by omega
    have h2 : 2 * k + 1 < reply.length := by omega
    refine ⟨⟨reply[2 * k].assertString.1, reply[2 * k + 1].assertString.1⟩, reply[2 * k],
      by simp [List.getElem?_range hk2, List.getD_eq_getElem, h1, h2],
      by simp [List.getElem?_eq_getElem h1], ?_, ?_, ?_⟩
    · exact fun x hx => assertString_of_str _ x hx
    · exact fun hx => assertString_of_not_str _ hx
    · intro _
      exact ⟨reply[2 * k + 1], by simp [List.getElem?_eq_getElem h2],
        fun x hx => assertString_of_str _ x hx, fun hx => assertString_of_not_str _ hx⟩

/-- C7, on a reply with payloads whose second and third elements are an integer
and a nil: with `max = -1` the call panics in `make`; with `max = 10` it returns
`[{tent, ""}, {"", payload2}]` and no error. -/
theorem SugGet_non_strings_outcome_witness :
    ((constClient 0 none replyMixed none).DB.Do
      (SugGet smallRuntime (constClient 0 none replyMixed none)
        "sug" "te" (-1) ⟨false, true⟩).args).Slice = (replyMixed, none) ∧
    replyMixed.length % 2 = 0 ∧
    (SugGet smallRuntime (constClient 0 none replyMixed none)
        "sug" "te" (-1) ⟨false, true⟩).ret = .error .makesliceCapOutOfRange ∧
    (SugGet smallRuntime (constClient 0 none replyMixed none)
        "sug" "te" 10 ⟨false, true⟩).ret =
      .ok ([⟨"tent", ""⟩, ⟨"", "payload2"⟩], none) :=
  ⟨rfl, rfl,
    (SugGet_non_strings_outcome smallRuntime (constClient 0 none replyMixed none)
      "sug" "te" (-1) ⟨false, true⟩ replyMixed rfl (fun _ => rfl)).2 (Or.inl (by decide)),
    (SugGet_pairs_of_reply smallRuntime (constClient 0 none replyMixed none)
      "sug" "te" 10 false replyMixed 2 (by decide) rfl rfl).trans rfl⟩

/-! ## Command construction -/

/-- C3. The argument list `SugAdd` hands to the driver is exactly
`["FT.SUGADD", key, text, score]`, then `"INCR"` exactly when `incr` is true,
then `["PAYLOAD", payload]` exactly when the payload is not empty, and nothing
else: it has `4 + (incr ? 1 : 0) + (payload != "" ? 2 : 0)` elements. -/
theorem SugAdd_command (s : RedisSuggestionClient) (key suggestion : String) (score : Float64)
    (incr : Bool) (payload : String) :
    (SugAdd s key suggestion score incr payload).args =
      [.str "FT.SUGADD", .str key, .str suggestion, .float score]
        ++ (if incr then [.str "INCR"] else [])
        ++ (if payload ≠ "" then [.str "PAYLOAD", .str payload] else []) ∧
    (SugAdd s key suggestion score incr payload).args.length =
      4 + (if incr then 1 else 0) + (if payload ≠ "" then 2 else 0) := by
  simp only [SugAdd]
  split_ifs <;> simp

/-- C3, on the calls of the test "when adding suggestions" (a payload without
`INCR`, `INCR` without a payload, neither) and on a call with both. -/
theorem SugAdd_command_witness :
    (SugAdd (constClient 1 none [] none) "sug" "text" scoreOne false "payload1").args =
      [.str "FT.SUGADD", .str "sug", .str "text", .float scoreOne,
        .str "PAYLOAD", .str "payload1"] ∧
    (SugAdd (constClient 3 none [] none) "sug" "tent" scoreOne true "").args =
      [.str "FT.SUGADD", .str "sug", .str "tent", .float scoreOne, .str "INCR"] ∧
    (SugAdd (constClient 3 none [] none) "sug" "tent" scoreOne false "").args =
      [.str "FT.SUGADD", .str "sug", .str "tent", .float scoreOne] ∧
    (SugAdd (constClient 3 none [] none) "sug" "tent" scoreOne true "p").args =
      [.str "FT.SUGADD", .str "sug", .str "tent", .float scoreOne, .str "INCR",
        .str "PAYLOAD", .str "p"] :=
  ⟨((SugAdd_command (constClient 1 none [] none) "sug" "text" scoreOne false
      "payload1").1).trans rfl,
    ((SugAdd_command (constClient 3 none [] none) "sug" "tent" scoreOne true "").1).trans rfl,
    ((SugAdd_command (constClient 3 none [] none) "sug" "tent" scoreOne false "").1).trans rfl,
    ((SugAdd_command (constClient 3 none [] none) "sug" "tent" scoreOne true "p").1).trans rfl⟩

/-- C4. The argument list `SugGet` hands to the driver is exactly
`["FT.SUGGET", key, prefix]`, then `"FUZZY"` exactly when `opts.Fuzzy`, then
`"WITHPAYLOADS"` exactly when `opts.WithPayloads`, then `["MAX", max]` exactly
when `max > 0`, in that order; for every `max ≤ 0` there is no `MAX` clause. -/
theorem SugGet_command (rt : Runtime) (s : RedisSuggestionClient) (key pre : String)
    (max : Int) (opts : SugGetOptions) :
    (SugGet rt s key pre max opts).args =
      [.str "FT.SUGGET", .str key, .str pre]
        ++ (if opts.Fuzzy then [.str "FUZZY"] else [])
        ++ (if opts.WithPayloads then [.str "WITHPAYLOADS"] else [])
        ++ (if 0 < max then [.str "MAX", .int max] else []) ∧
    (max ≤ 0 →
      (SugGet rt s key pre max opts).args =
        [.str "FT.SUGGET", .str key, .str pre]
          ++ (if opts.Fuzzy then [.str "FUZZY"] else [])
          ++ (if opts.WithPayloads then [.str "WITHPAYLOADS"] else [])) := by
  refine ⟨SugGet_args rt s key pre max opts, fun h => ?_⟩
  rw [SugGet_args, if_neg (not_lt.mpr h), List.append_nil]

/-- C4, at `max = -3` with both options set and at `max = 5` with none. -/
theorem SugGet_command_witness :
    (SugGet smallRuntime (constClient 0 none [] none) "sug" "te" (-3) ⟨true, true⟩).args =
      [.str "FT.SUGGET", .str "sug", .str "te", .str "FUZZY", .str "WITHPAYLOADS"] ∧
    (SugGet smallRuntime (constClient 0 none [] none) "sug" "te" 5 ⟨false, false⟩).args =
      [.str "FT.SUGGET", .str "sug", .str "te", .str "MAX", .int 5] :=
  ⟨((SugGet_command smallRuntime (constClient 0 none [] none) "sug" "te" (-3)
      ⟨true, true⟩).2 (by decide)).trans rfl,
    ((SugGet_command smallRuntime (constClient 0 none [] none) "sug" "te" 5
      ⟨false, false⟩).1).trans rfl⟩

/-! ## Result mapping -/

/-- C5. `SugDel` issues exactly `["FT.SUGDEL", key, text]`; it returns the
driver's error unchanged when the driver fails, `redis.Nil` when the driver
succeeds with integer 0, and no error when the driver succeeds with any other
integer; so on a successful driver call it returns `redis.Nil` exactly when the
removal count is 0. -/
theorem SugDel_result (s : RedisSuggestionClient) (key suggestion : String) :
    (SugDel s key suggestion).args = [.str "FT.SUGDEL", .str key, .str suggestion] ∧
    (∀ (v : Int) (e : Error),
      (s.DB.Do [.str "FT.SUGDEL", .str key, .str suggestion]).Int = (v, some e) →
        (SugDel s key suggestion).ret = some e) ∧
    (∀ v : Int,
      (s.DB.Do [.str "FT.SUGDEL", .str key, .str suggestion]).Int = (v, none) →
        (v = 0 → (SugDel s key suggestion).ret = some Error.Nil) ∧
        (v ≠ 0 → (SugDel s key suggestion).ret = none) ∧
        ((SugDel s key suggestion).ret = some Error.Nil ↔ v = 0)) := by
  refine ⟨rfl, ?_, ?_⟩
  · intro v e h
    simp only [SugDel, h]
  · intro v h
    simp only [SugDel, h]
    by_cases hv : v = 0 <;> simp [hv]

/-- C5, on three drivers: one that fails with a connection error, one that
removes nothing, one that removes one entry. -/
theorem SugDel_result_witness :
    (SugDel (constClient 0 (some (.other "i/o timeout")) [] none) "sug" "test").ret =
      some (.other "i/o timeout") ∧
    (SugDel (constClient 0 none [] none) "sug" "asdf").ret = some Error.Nil ∧
    (SugDel (constClient 1 none [] none) "sug" "test").ret = none :=
  ⟨(SugDel_result (constClient 0 (some (.other "i/o timeout")) [] none) "sug" "test").2.1
      0 (.other "i/o timeout") rfl,
    ((SugDel_result (constClient 0 none [] none) "sug" "asdf").2.2 0 rfl).1 rfl,
    ((SugDel_result (constClient 1 none [] none) "sug" "test").2.2 1 rfl).2.1 (by decide)⟩

/-- C6. When the driver call (or its conversion to a list) yields an error `e`,
`redis.Nil` included, `SugGet` returns exactly `e` with an empty result and
decodes nothing: the outcome is the same for every reply value, every `max`
(also one for which the allocation would panic) and every option setting. -/
theorem SugGet_executor_error (rt : Runtime) (s : RedisSuggestionClient) (key pre : String)
    (max : Int) (opts : SugGetOptions) (reply : List Value) (e : Error)
    (hdo : (s.DB.Do (SugGet rt s key pre max opts).args).Slice = (reply, some e)) :
    (SugGet rt s key pre max opts).ret = .ok ([], some e) ∧
    ∀ out err, (SugGet rt s key pre max opts).ret = .ok (out, err) →
      out.length = 0 ∧ err = some e := by
  have h := SugGet_ret_of_error rt s key pre max opts reply e hdo
  refine ⟨h, ?_⟩
  intro out err hret
  rw [h] at hret
  cases hret
  exact ⟨rfl, rfl⟩

/-- C6, on a nonexistent key: the driver signals `redis.Nil`; even with a
negative `max` and a reply value of odd length under `WithPayloads`, the call
returns `redis.Nil` and an empty result. -/
theorem SugGet_executor_error_witness :
    ((constClient 0 none [.str "tent"] (some Error.Nil)).DB.Do
      (SugGet smallRuntime (constClient 0 none [.str "tent"] (some Error.Nil))
        "non-existent" "te" (-1) ⟨false, true⟩).args).Slice
      = ([.str "tent"], some Error.Nil) ∧
    (SugGet smallRuntime (constClient 0 none [.str "tent"] (some Error.Nil))
        "non-existent" "te" (-1) ⟨false, true⟩).ret = .ok ([], some Error.Nil) :=
  ⟨rfl, (SugGet_executor_error smallRuntime (constClient 0 none [.str "tent"] (some Error.Nil))
      "non-existent" "te" (-1) ⟨false, true⟩ [.str "tent"] Error.Nil rfl).1⟩

/-- C9. `SugAdd` returns exactly the integer and error of the driver's
integer-decoded reply to the `FT.SUGADD` command it built; `SugLen` issues
exactly `["FT.SUGLEN", key]` and returns exactly the driver's integer and error.
A driver error comes back unchanged, and a driver reply of integer 0 without
error gives `(0, no error)` from `SugLen`. -/
theorem SugAdd_SugLen_pass_through (s : RedisSuggestionClient) (key suggestion : String)
    (score : Float64) (incr : Bool) (payload : String) :
    (SugAdd s key suggestion score incr payload).ret =
      (s.DB.Do ([.str "FT.SUGADD", .str key, .str suggestion, .float score]
        ++ (if incr then [.str "INCR"] else [])
        ++ (if payload ≠ "" then [.str "PAYLOAD", .str payload] else []))).Int ∧
    (SugLen s key).args = [.str "FT.SUGLEN", .str key] ∧
    (SugLen s key).ret = (s.DB.Do [.str "FT.SUGLEN", .str key]).Int ∧
    (∀ (n : Int) (e : Error),
      (s.DB.Do (SugAdd s key suggestion score incr payload).args).Int = (n, some e) →
        (SugAdd s key suggestion score incr payload).ret = (n, some e)) ∧
    (∀ (n : Int) (e : Error),
      (s.DB.Do [.str "FT.SUGLEN", .str key]).Int = (n, some e) →
        (SugLen s key).ret = (n, some e)) ∧
    ((s.DB.Do [.str "FT.SUGLEN", .str key]).Int = (0, none) →
      (SugLen s key).ret = (0, none)) := by
  refine ⟨?_, rfl, rfl, fun n e h => ?_, fun n e h => ?_, fun h => ?_⟩
  · simp only [SugAdd]
    split_ifs <;> simp
  · exact h
  · exact h
  · exact h

/-- C9, on a driver that fails and on one that answers 0 for a nonexistent key. -/
theorem SugAdd_SugLen_pass_through_witness :
    (SugAdd (constClient 0 (some (.other "i/o timeout")) [] none)
      "sug" "text" scoreOne false "payload1").ret = (0, some (.other "i/o timeout")) ∧
    (SugLen (constClient 0 none [] none) "non-existent").ret = (0, none) :=
  ⟨(SugAdd_SugLen_pass_through (constClient 0 (some (.other "i/o timeout")) [] none)
      "sug" "text" scoreOne false "payload1").2.2.2.1 0 (.other "i/o timeout") rfl,
    (SugAdd_SugLen_pass_through (constClient 0 none [] none)
      "non-existent" "text" scoreOne false "").2.2.2.2.2 rfl⟩

/-! ## Panics of `SugGet` -/

/-- C8 fails on the code for every negative `max`.  For `max ≤ 0` and any reply
the driver returns without error, whatever the options: a negative `max` makes
`make([]Suggestion, 0, max)` panic with "makeslice: cap out of range", so the
call returns nothing; only `max = 0` goes on to the decoding loop and ends as
that loop ends, as a call with a positive `max` does. -/
theorem SugGet_nonpositive_max_outcome (rt : Runtime) (s : RedisSuggestionClient)
    (key pre : String) (max : Int) (opts : SugGetOptions) (reply : List Value)
    (hmax : max ≤ 0)
    (hdo : (s.DB.Do (SugGet rt s key pre max opts).args).Slice = (reply, none)) :
    (max < 0 → (SugGet rt s key pre max opts).ret = .error .makesliceCapOutOfRange) ∧
    (max = 0 →
      (SugGet rt s key pre max opts).ret =
        match decodeLoop opts.WithPayloads reply 0 [] with
        | .error p => .error p
        | .ok suggestions => .ok (suggestions, none)) := by
  refine ⟨fun h => SugGet_ret_of_bad_cap rt s key pre max opts reply (Or.inl h) hdo,
    fun h => SugGet_ret_of_reply rt s key pre max opts reply ?_ hdo⟩
  subst h
  exact ⟨le_refl 0, Int.ofNat_nonneg rt.maxCap⟩

/-- C8, at `max = -1` on the reply of the test "when prefix": the call panics,
where `max = 10` returns the three suggestions. -/
theorem SugGet_nonpositive_max_outcome_witness :
    (-1 : Int) ≤ 0 ∧
    ((constClient 0 none replyTexts none).DB.Do
      (SugGet smallRuntime (constClient 0 none replyTexts none)
        "sug" "te" (-1) ⟨false, false⟩).args).Slice = (replyTexts, none) ∧
    (SugGet smallRuntime (constClient 0 none replyTexts none)
        "sug" "te" (-1) ⟨false, false⟩).ret = .error .makesliceCapOutOfRange ∧
    (SugGet smallRuntime (constClient 0 none replyTexts none)
        "sug" "te" 10 ⟨false, false⟩).ret =
      .ok ([⟨"tent", ""⟩, ⟨"test", ""⟩, ⟨"text", ""⟩], none) :=
  ⟨by decide, rfl,
    (SugGet_nonpositive_max_outcome smallRuntime (constClient 0 none replyTexts none)
      "sug" "te" (-1) ⟨false, false⟩ replyTexts (by decide) rfl).1 (by decide),
    (SugGet_texts_of_reply smallRuntime (constClient 0 none replyTexts none)
      "sug" "te" 10 false replyTexts (by decide) rfl).trans rfl⟩

/-- C10 fails on the code for every reply of odd length `2 * n + 1` returned
without error under `WithPayloads = true`: once the result buffer is allocated,
the loop reads the last text at index `2 * n`, increments, and reads the payload
at index `2 * n + 1`, which is the length of the reply: the call panics with
"index out of range" and returns nothing. -/
theorem SugGet_odd_reply_withPayloads_panics (rt : Runtime) (s : RedisSuggestionClient)
    (key pre : String) (max : Int) (fuzzy : Bool) (reply : List Value) (n : Nat)
    (hmax : 0 ≤ max ∧ max ≤ rt.maxCap)
    (hdo : (s.DB.Do (SugGet rt s key pre max ⟨fuzzy, true⟩).args).Slice = (reply, none))
    (hlen : reply.length = 2 * n + 1) :
    (SugGet rt s key pre max ⟨fuzzy, true⟩).ret =
      .error (.indexOutOfRange (2 * n + 1) (2 * n + 1)) := by
  rw [SugGet_ret_of_reply rt s key pre max _ reply hmax hdo]
  simp only [decodeLoop_odd reply n 0 [] (by omega), hlen]

/-- C10, on the one-element reply `["tent"]`: index 1 is read in a reply of
length 1. -/
theorem SugGet_odd_reply_withPayloads_panics_witness :
    ((0 : Int) ≤ 10 ∧ (10 : Int) ≤ smallRuntime.maxCap) ∧
    ((constClient 0 none [.str "tent"] none).DB.Do
      (SugGet smallRuntime (constClient 0 none [.str "tent"] none)
        "sug" "te" 10 ⟨false, true⟩).args).Slice = ([.str "tent"], none) ∧
    (SugGet smallRuntime (constClient 0 none [.str "tent"] none)
        "sug" "te" 10 ⟨false, true⟩).ret = .error (.indexOutOfRange 1 1) :=
  ⟨by decide, rfl,
    SugGet_odd_reply_withPayloads_panics smallRuntime (constClient 0 none [.str "tent"] none)
      "sug" "te" 10 false [.str "tent"] 0 (by decide) rfl rfl⟩

end Redissug
